import Mathlib

/-!
Verification of the http-server repository: a shallow embedding, in Lean 4,
of the HTTP message model (`include/http.h`), the request parser
(`src/http_parser.c`, `src/parse_http_request_supplement.c`), the static
resource resolver (`src/file_server.c`, `src/build_file_path_supplement.c`,
`src/serve_static_file_supplement.c`), the router (`src/router.c`) and the
response serializer (`src/send_http_response_supplement.c`).

C strings are embedded as `List Char` (NUL-terminated buffers never contain
an interior NUL, so the terminator is implicit).  Fixed-capacity arrays with
an explicit element count (`headers[MAX_HEADERS][2][MAX_HEADER_SIZE]` plus
`header_count`) are embedded as the list of their first `header_count`
entries, which is exactly what every reader of the structure observes.
The filesystem and the output socket are external collaborators: the
filesystem is an explicit oracle record, and each `write`-ing function is
embedded as the list of bytes it writes.
-/

/-! ## C string primitives -/

/-- `strchr` on a char list: index of the first occurrence of `c`, if any. -/
def strchrIdx (c : Char) : List Char → Option Nat
  | [] => none
  | a :: t =>
    if a = c then some 0
    else
      match strchrIdx c t with
      | some i => some (i + 1)
      | none => none

/-- Does `needle` occur at the very start of `hay`?  (The prefix test that
`strstr` performs at each candidate position.) -/
def leadsWith : List Char → List Char → Bool
  | [], _ => true
  | _ :: _, [] => false
  | a :: as, b :: bs => a == b && leadsWith as bs

/-- Helper for `strstrIdx`: scan positions left to right. -/
def strstrAux (needle : List Char) : List Char → Option Nat
  | [] => if leadsWith needle [] then some 0 else none
  | c :: t =>
    if leadsWith needle (c :: t) then some 0
    else
      match strstrAux needle t with
      | some i => some (i + 1)
      | none => none

/-- `strstr` on char lists: index of the first occurrence of `needle` in
`hay`, if any. -/
def strstrIdx (hay needle : List Char) : Option Nat :=
  strstrAux needle hay

/-- `strtok(line, " ")` iterated to exhaustion: the maximal non-empty runs
of non-space characters, in order.  (`strtok` with delimiter set `" "`
skips runs of spaces and returns each non-empty token.) -/
def strtokSpaces : List Char → List Char → List (List Char)
  | [], cur => if cur.isEmpty then [] else [cur.reverse]
  | c :: t, cur =>
    if c = ' ' then
      if cur.isEmpty then strtokSpaces t []
      else cur.reverse :: strtokSpaces t []
    else strtokSpaces t (c :: cur)

/-- The space-separated tokens of a char list, as produced by repeated
`strtok(_, " ")` calls in `parse_http_request`. -/
def tokenize (s : List Char) : List (List Char) :=
  strtokSpaces s []

/-! ## Message model (`include/http.h`) -/

/-- `http.h`: `MAX_HEADERS`. -/
def MAX_HEADERS : Nat := 50

/-- `http.h`: `MAX_HEADER_SIZE`.  `strncpy(dst, src, MAX_HEADER_SIZE - 1)`
into a zeroed buffer stores the first 255 characters of `src`. -/
def MAX_HEADER_SIZE : Nat := 256

/-- `http.h`: `MAX_URI_SIZE`. -/
def MAX_URI_SIZE : Nat := 1024

/-- `http.h`: `MAX_METHOD_SIZE`. -/
def MAX_METHOD_SIZE : Nat := 16

/-- `http.h`: `MAX_VERSION_SIZE`. -/
def MAX_VERSION_SIZE : Nat := 16

/-- `http_request_t` from `http.h`.  The header array plus `header_count`
is embedded as the list of the first `header_count` (key, value) pairs. -/
structure http_request_t where
  method : List Char
  uri : List Char
  version : List Char
  headers : List (List Char × List Char)
  body : Option (List Char)
  body_length : Nat
deriving DecidableEq

/-- `http_response_t` from `http.h`.  `status_code` is a C `int`. -/
structure http_response_t where
  status_code : Int
  headers : List (List Char × List Char)
  body : Option (List Char)
  body_length : Nat
deriving DecidableEq

/-! ## Request parser (`parse_http_request_supplement.c`, `http_parser.c`) -/

/-- `find_header_end`: index of the first `"\r\n\r\n"`, else of the first
`"\n\n"`, else none. -/
def find_header_end (raw : List Char) : Option Nat :=
  match strstrIdx raw ['\r', '\n', '\r', '\n'] with
  | some i => some i
  | none => strstrIdx raw ['\n', '\n']

/-- `find_request_line_end`: index of the first `'\n'`. -/
def find_request_line_end (raw : List Char) : Option Nat :=
  strchrIdx '\n' raw

/-- `copy_line`: the copied segment with a single trailing `'\r'` removed
if present. -/
def copy_line (s : List Char) : List Char :=
  match s.getLast? with
  | some c => if c = '\r' then s.dropLast else s
  | none => s

/-- `parse_header`: reject on header-array overflow or on a line without a
colon; otherwise split at the first `':'`, strip leading spaces/tabs from
the value only, and append the (key, value) pair, each field truncated to
`MAX_HEADER_SIZE - 1` characters by `strncpy`. -/
def parse_header (header_line : List Char)
    (headers : List (List Char × List Char)) :
    Option (List (List Char × List Char)) :=
  if headers.length ≥ MAX_HEADERS then none
  else
    match strchrIdx ':' header_line with
    | none => none
    | some i =>
      let key := header_line.take i
      let value := (header_line.drop (i + 1)).dropWhile
        (fun c => c == ' ' || c == '\t')
      some (headers ++ [(key.take (MAX_HEADER_SIZE - 1),
                         value.take (MAX_HEADER_SIZE - 1))])

/-- The header-scanning loop of `parse_http_request`, expressed on the
suffix of the raw request that starts at the loop's `current` pointer.
`stopLen` is the length of the suffix that starts at `header_end`, so the
C condition `current < header_end` is `stopLen < rest.length`.  `fuel` is
a structural-recursion bound; the caller passes `rest.length`, which is
sufficient because each iteration consumes at least one character of
`rest`, so the `fuel = 0` branch (which behaves like loop exit) is never
reached. -/
def parse_headers_loop :
    Nat → List Char → Nat → List (List Char × List Char) →
    Option (List (List Char × List Char))
  | 0, _, _, acc => some acc
  | fuel + 1, rest, stopLen, acc =>
    if stopLen < rest.length ∧ acc.length < MAX_HEADERS then
      match strchrIdx '\n' rest with
      | none => some acc
      | some off =>
        if off ≤ 1 then some acc
        else
          match parse_header (copy_line (rest.take off)) acc with
          | none => none
          | some acc2 =>
            parse_headers_loop fuel (rest.drop (off + 1)) stopLen acc2
    else some acc

/-- `parse_http_request`: locate the header/body boundary, cut out the
request line, split it into method / URI / version with `strtok(_, " ")`
(each stored field truncated by `strncpy` to its buffer size minus one),
then scan the header lines.  `none` is the C return value `-1`
(`MalformedRequest`); the body is never populated by this layer. -/
def parse_http_request (raw : List Char) : Option http_request_t :=
  match find_header_end raw with
  | none => none
  | some hdrEnd =>
    match find_request_line_end raw with
    | none => none
    | some lineEnd =>
      let request_line := copy_line (raw.take lineEnd)
      match tokenize request_line with
      | m :: u :: v :: _ =>
        let rest := raw.drop (lineEnd + 1)
        match parse_headers_loop rest.length rest (raw.length - hdrEnd) [] with
        | none => none
        | some hs =>
          some ⟨m.take (MAX_METHOD_SIZE - 1), u.take (MAX_URI_SIZE - 1),
                v.take (MAX_VERSION_SIZE - 1), hs, none, 0⟩
      | _ => none

example : parse_http_request ("GET / HTTP/1.1\r\nHost: x\r\n\r\n".toList) =
    some ⟨"GET".toList, "/".toList, "HTTP/1.1".toList,
          [("Host".toList, "x".toList)], none, 0⟩ := by decide

/-! ## Static resource resolver (`file_server.c`,
`build_file_path_supplement.c`, `serve_static_file_supplement.c`) -/

/-- `file_server.c`: `DOCUMENT_ROOT`. -/
def DOCUMENT_ROOT : List Char := "./static".toList

/-- The twelve real rows of the `mime_types` table (the `{NULL, ...}`
sentinel row is the loop terminator in C and is represented by the
nil case of `mimeLookup`). -/
def mime_types : List (List Char × List Char) :=
  [(".html".toList, "text/html".toList),
   (".htm".toList, "text/html".toList),
   (".css".toList, "text/css".toList),
   (".js".toList, "application/javascript".toList),
   (".json".toList, "application/json".toList),
   (".png".toList, "image/png".toList),
   (".jpg".toList, "image/jpeg".toList),
   (".jpeg".toList, "image/jpeg".toList),
   (".gif".toList, "image/gif".toList),
   (".svg".toList, "image/svg+xml".toList),
   (".txt".toList, "text/plain".toList),
   (".pdf".toList, "application/pdf".toList)]

/-- `strcasecmp(a, b) == 0`: case-insensitive equality. -/
def strcaseEq (a b : List Char) : Bool :=
  a.map Char.toLower == b.map Char.toLower

/-- `strrchr(filename, '.')`: the suffix of `filename` that starts at its
last `'.'`, if any. -/
def extensionOf (filename : List Char) : Option (List Char) :=
  match strchrIdx '.' filename.reverse with
  | none => none
  | some i => some (filename.drop (filename.length - 1 - i))

/-- The scan of the `mime_types` table in `get_mime_type`; falling off the
table yields the default `"application/octet-stream"`. -/
def mimeLookup : List (List Char × List Char) → List Char → List Char
  | [], _ => "application/octet-stream".toList
  | (e, m) :: t, ext => if strcaseEq ext e then m else mimeLookup t ext

/-- `get_mime_type`: map the (case-insensitive) extension after the last
dot through the table; no dot means `"application/octet-stream"`. -/
def get_mime_type (filename : List Char) : List Char :=
  match extensionOf filename with
  | none => "application/octet-stream".toList
  | some ext => mimeLookup mime_types ext

/-- `is_safe_path`: reject any path containing `".."` or `"//"`. -/
def is_safe_path (path : List Char) : Bool :=
  if (strstrIdx path ['.', '.']).isSome then false
  else if (strstrIdx path ['/', '/']).isSome then false
  else true

/-- `get_default_file_path`: URI `"/"` maps to `"/index.html"`; every
other URI passes through unchanged. -/
def get_default_file_path (uri : List Char) : List Char :=
  if uri = "/".toList then "/index.html".toList else uri

/-- `construct_full_path`: `snprintf("%s%s", base_dir, file_path)` into an
exactly-sized buffer, i.e. concatenation.  (The `malloc`-failure `NULL`
return models an out-of-memory condition of the host, not program logic,
and is not represented.) -/
def construct_full_path (base_dir file_path : List Char) : List Char :=
  base_dir ++ file_path

/-- `build_file_path`: `NULL` (here `none`) when the safety check rejects
the URI, otherwise document root concatenated with the possibly-defaulted
URI. -/
def build_file_path (uri : List Char) : Option (List Char) :=
  if is_safe_path uri then
    some (construct_full_path DOCUMENT_ROOT (get_default_file_path uri))
  else none

/-- The result of a successful `stat` call: the reported size and whether
`S_ISREG` holds. -/
structure FileStat where
  st_size : Nat
  is_regular : Bool

/-- The filesystem, an external collaborator of the resolver.
`stat` models the `stat(2)` call (`none` = the call failed);
`readBytes path n` models `open(path, O_RDONLY)` followed by
`read(fd, buf, n)`: `none` is an `open` failure and `some bs` is a read
that returned the bytes `bs` (a short read returns fewer than `n`). -/
structure FileSystem where
  stat : List Char → Option FileStat
  readBytes : List Char → Nat → Option (List Char)

/-- `validate_file`: `stat` must succeed and report a regular file; on
success the caller reads `file_stat.st_size`, so the embedding returns
the size directly. -/
def validate_file (fs : FileSystem) (file_path : List Char) : Option Nat :=
  match fs.stat file_path with
  | none => none
  | some st => if st.is_regular then some st.st_size else none

/-- `read_file_content`: open failure is `NULL`; a read whose byte count
differs from `file_size` frees the partially filled buffer and returns
`NULL`; otherwise the freshly read content is returned. -/
def read_file_content (fs : FileSystem) (file_path : List Char)
    (file_size : Nat) : Option (List Char) :=
  match fs.readBytes file_path file_size with
  | none => none
  | some bs => if bs.length ≠ file_size then none else some bs

/-- The headers `set_static_file_headers` appends at `header_count`:
Content-Type from the MIME table and a fixed Cache-Control. -/
def set_static_file_headers (file_path : List Char) :
    List (List Char × List Char) :=
  [("Content-Type".toList, get_mime_type file_path),
   ("Cache-Control".toList, "public, max-age=3600".toList)]

/-- `serve_static_file_handler`: unsafe path or failed validation gives a
404 `"File not found"` response (headers slot 0 overwritten and
`header_count` set to 1); a failed content load gives a 500
`"Internal server error"` response; success gives a 200 response whose
body is the file content with `body_length = bytes_read` and the static
headers appended after the response's existing `header_count` entries. -/
def serve_static_file_handler (fs : FileSystem) (request : http_request_t)
    (response : http_response_t) : http_response_t :=
  match build_file_path request.uri with
  | none =>
    ⟨404, [("Content-Type".toList, "text/plain".toList)],
     some ("File not found".toList), ("File not found".toList).length⟩
  | some file_path =>
    match validate_file fs file_path with
    | none =>
      ⟨404, [("Content-Type".toList, "text/plain".toList)],
       some ("File not found".toList), ("File not found".toList).length⟩
    | some size =>
      match read_file_content fs file_path size with
      | none =>
        ⟨500, [("Content-Type".toList, "text/plain".toList)],
         some ("Internal server error".toList),
         ("Internal server error".toList).length⟩
      | some content =>
        ⟨200, response.headers ++ set_static_file_headers file_path,
         some content, size⟩

/-! ## Router (`router.c`) -/

/-- A registered handler: `void (*)(http_request_t*, http_response_t*)`,
embedded as a function from the request and the incoming response to the
updated response. -/
def Handler : Type :=
  http_request_t → http_response_t → http_response_t

/-- `router.c`: `MAX_ROUTES`. -/
def MAX_ROUTES : Nat := 50

/-- `handle_home_page`. -/
def handle_home_page : Handler := fun _ _ =>
  ⟨200, [("Content-Type".toList, "text/html".toList)],
   some ("<html><body><h1>Welcome to our HTTP Server!</h1></body></html>".toList),
   ("<html><body><h1>Welcome to our HTTP Server!</h1></body></html>".toList).length⟩

/-- `handle_hello_page`. -/
def handle_hello_page : Handler := fun _ _ =>
  ⟨200, [("Content-Type".toList, "text/plain".toList)],
   some ("Hello, World!".toList), ("Hello, World!".toList).length⟩

/-- `handle_not_found`: the canonical 404 with a plain-text body. -/
def handle_not_found : Handler := fun _ _ =>
  ⟨404, [("Content-Type".toList, "text/plain".toList)],
   some ("Page not found".toList), ("Page not found".toList).length⟩

/-- `register_route`: append while `route_count < MAX_ROUTES`; beyond the
capacity the registration is silently dropped. -/
def register_route (routes : List (List Char × Handler))
    (path : List Char) (handler : Handler) :
    List (List Char × Handler) :=
  if routes.length < MAX_ROUTES then routes ++ [(path, handler)]
  else routes

/-- `handle_route`: scan the table in registration order and invoke the
handler of the first entry whose path equals the request URI
(`strcmp == 0`); with no match, `handle_not_found`. -/
def handle_route : List (List Char × Handler) → http_request_t →
    http_response_t → http_response_t
  | [], request, response => handle_not_found request response
  | (path, handler) :: t, request, response =>
    if request.uri = path then handler request response
    else handle_route t request response

/-! ## Response serializer (`send_http_response_supplement.c`) -/

/-- The status-text selection in `update_status_line`: the local starts as
`"OK"` and is replaced only for 404 and 500. -/
def status_text (status_code : Int) : List Char :=
  if status_code = 404 then "Not Found".toList
  else if status_code = 500 then "Internal Server Error".toList
  else "OK".toList

/-- `update_status_line`: the bytes written for
`snprintf("HTTP/1.1 %d %s\r\n", code, text)`. -/
def update_status_line (response : http_response_t) : List Char :=
  "HTTP/1.1 ".toList ++ (toString response.status_code).toList ++
    [' '] ++ status_text response.status_code ++ "\r\n".toList

/-- `update_headers`: one `"key: value\r\n"` line per stored header, in
stored order. -/
def update_headers (response : http_response_t) : List Char :=
  (response.headers.map
    (fun kv => kv.1 ++ ": ".toList ++ kv.2 ++ "\r\n".toList)).flatten

/-- `update_content_length`: a `Content-Length` line is written if and
only if `body` is non-NULL and `body_length > 0`. -/
def update_content_length (response : http_response_t) : List Char :=
  match response.body with
  | none => []
  | some _ =>
    if response.body_length > 0 then
      "Content-Length: ".toList ++
        (Nat.repr response.body_length).toList ++ "\r\n".toList
    else []

/-- `add_headers`: stored headers, then the synthesized Content-Length,
then the blank-line terminator. -/
def add_headers (response : http_response_t) : List Char :=
  update_headers response ++ update_content_length response ++ "\r\n".toList

/-- `write_body`: `write(fd, body, body_length)` when `body` is non-NULL
and `body_length > 0`; the bytes written are the first `body_length`
bytes of the buffer (every response this program constructs has
`body_length` equal to the buffer's length). -/
def write_body (response : http_response_t) : List Char :=
  match response.body with
  | none => []
  | some bs =>
    if response.body_length > 0 then bs.take response.body_length else []

/-- `send_http_response`: status line, then headers block, then body, in
that order. -/
def send_http_response (response : http_response_t) : List Char :=
  update_status_line response ++ add_headers response ++ write_body response

example : send_http_response ⟨200, [("Content-Type".toList, "text/plain".toList)],
    some ("Hello, World!".toList), 13⟩ =
    "HTTP/1.1 200 OK\r\nContent-Type: text/plain\r\nContent-Length: 13\r\n\r\nHello, World!".toList := by
  decide

/-! ## Claim C1: traversal-unsafe URIs are rejected with 404 -/

/-- C1.  For every URI containing the substring `".."` or the substring
`"//"`, `build_file_path` rejects the URI (the `is_safe_path` check fails,
so the resolver returns `NULL`), and `serve_static_file_handler` produces
a 404 `"File not found"` response — for every filesystem, i.e. regardless
of whether the literal file exists under the document root. -/
theorem c1_traversal_rejected (fs : FileSystem) (request : http_request_t)
    (response : http_response_t)
    (h : (strstrIdx request.uri ['.', '.']).isSome = true ∨
         (strstrIdx request.uri ['/', '/']).isSome = true) :
    build_file_path request.uri = none ∧
    (serve_static_file_handler fs request response).status_code = 404 ∧
    (serve_static_file_handler fs request response).body =
      some ("File not found".toList) := by
  have hsafe : is_safe_path request.uri = false := by
    unfold is_safe_path
    rcases h with h | h <;> simp [h]
  have hbuild : build_file_path request.uri = none := by
    simp [build_file_path, hsafe]
  refine ⟨hbuild, ?_, ?_⟩ <;> simp [serve_static_file_handler, hbuild]

/-- C1 witness: the URI `"/../etc/passwd"` is rejected even on a
filesystem where every path stats as a regular file and reads succeed. -/
theorem c1_traversal_rejected_witness :
    build_file_path ("/../etc/passwd".toList) = none ∧
    (serve_static_file_handler
        ⟨fun _ => some ⟨5, true⟩, fun _ _ => some ("hello".toList)⟩
        ⟨"GET".toList, "/../etc/passwd".toList, "HTTP/1.1".toList, [], none, 0⟩
        ⟨200, [], none, 0⟩).status_code = 404 ∧
    (serve_static_file_handler
        ⟨fun _ => some ⟨5, true⟩, fun _ _ => some ("hello".toList)⟩
        ⟨"GET".toList, "/../etc/passwd".toList, "HTTP/1.1".toList, [], none, 0⟩
        ⟨200, [], none, 0⟩).body = some ("File not found".toList) :=
  c1_traversal_rejected
    ⟨fun _ => some ⟨5, true⟩, fun _ _ => some ("hello".toList)⟩
    ⟨"GET".toList, "/../etc/passwd".toList, "HTTP/1.1".toList, [], none, 0⟩
    ⟨200, [], none, 0⟩ (Or.inl (by decide))

/-! ## Claim C2: more than MAX_HEADERS header lines -/

/-- A raw request whose header block holds 51 header lines. -/
def fiftyOneHeaderRequest : List Char :=
  "GET / HTTP/1.1\n".toList ++
    (List.replicate 51 ("A: b\n".toList)).flatten ++ "\n".toList

set_option maxRecDepth 100000 in
/-- C2.  Contrary to the claim, a request with 51 header lines parses
successfully and the header list is silently truncated to the first 50
entries: the loop guard `header_count < MAX_HEADERS` exits the scan before
the overflow branch in `parse_header` (which would fail the request) can
ever fire. -/
theorem c2_overflow_truncates :
    Option.map (fun r => (r.method, r.headers.length))
        (parse_http_request fiftyOneHeaderRequest) =
      some ("GET".toList, 50) := by decide

/-! ## Claim C5: header lines without a colon -/

/-- A raw request whose header block starts with the colonless, non-blank
one-character line `"a"`, followed by a well-formed header line. -/
def oneCharHeaderLineRequest : List Char :=
  "GET / HTTP/1.1\na\nX: y\n\n".toList

/-- C5.  Contrary to the claim, parsing this request succeeds (with zero
stored headers): the check `line_length <= 1`, commented `// Empty line`
in the source, also matches the non-empty colonless line `"a"` and ends
header parsing early instead of failing the request. -/
theorem c5_colonless_short_line_accepted :
    parse_http_request oneCharHeaderLineRequest =
      some ⟨"GET".toList, "/".toList, "HTTP/1.1".toList, [], none, 0⟩ := by
  decide

/-! ## Claim C3: the status-code → reason-phrase table -/

/-- C3 counterexample: the codes 400 and 405 do not have literal phrases
of their own — they fall through to the same default `"OK"` that 200 and
every unknown code (such as 999) receive, so unknown codes do not get an
empty/`"Unknown"` generic phrase either. -/
theorem c3_status_text_counterexample :
    update_status_line ⟨400, [], none, 0⟩ = "HTTP/1.1 400 OK\r\n".toList ∧
    update_status_line ⟨405, [], none, 0⟩ = "HTTP/1.1 405 OK\r\n".toList ∧
    update_status_line ⟨999, [], none, 0⟩ = "HTTP/1.1 999 OK\r\n".toList := by
  refine ⟨?_, ?_, ?_⟩ <;> decide

/-- C3 (amended).  The serializer writes the status line with a
reason phrase looked up from a fixed selection in which only 404
(`"Not Found"`) and 500 (`"Internal Server Error"`) have literal phrases
of their own; every other code — 200, 400 and 405 included — receives the
default phrase `"OK"`. -/
theorem c3_status_text_amended (response : http_response_t) :
    (response.status_code = 404 →
      update_status_line response = "HTTP/1.1 404 Not Found\r\n".toList) ∧
    (response.status_code = 500 →
      update_status_line response =
        "HTTP/1.1 500 Internal Server Error\r\n".toList) ∧
    (response.status_code ≠ 404 → response.status_code ≠ 500 →
      update_status_line response =
        "HTTP/1.1 ".toList ++ (toString response.status_code).toList ++
          [' '] ++ "OK".toList ++ "\r\n".toList) := by
  refine ⟨fun h => ?_, fun h => ?_, fun h1 h2 => ?_⟩
  · simp only [update_status_line, status_text, h]
    decide
  · simp only [update_status_line, status_text, h]
    decide
  · simp only [update_status_line, status_text, if_neg h1, if_neg h2]

/-- C3 witness: the amended lookup evaluated at status 404. -/
theorem c3_status_text_witness :
    update_status_line ⟨404, [], none, 0⟩ =
      "HTTP/1.1 404 Not Found\r\n".toList :=
  (c3_status_text_amended ⟨404, [], none, 0⟩).1 rfl

/-! ## Claim C6: the synthesized Content-Length header -/

/-- C6.  `update_content_length` emits a synthesized Content-Length line
if and only if the body is present and non-empty, and the emitted value
`body_length` equals the number of body bytes `write_body` subsequently
writes (the hypothesis `body_length ≤ bs.length` is the invariant every
response constructed by this program satisfies, with equality); a
response with no body omits Content-Length entirely. -/
theorem c6_content_length_iff_body (response : http_response_t) :
    ((response.body = none ∨ response.body_length = 0) →
      update_content_length response = []) ∧
    (∀ bs, response.body = some bs → 0 < response.body_length →
      response.body_length ≤ bs.length →
      update_content_length response =
        "Content-Length: ".toList ++
          (Nat.repr response.body_length).toList ++ "\r\n".toList ∧
      (write_body response).length = response.body_length) := by
  constructor
  · intro h
    rcases h with h | h
    · simp [update_content_length, h]
    · cases hb : response.body <;> simp [update_content_length, hb, h]
  · intro bs hb hpos hle
    constructor
    · simp [update_content_length, hb, hpos]
    · simp [write_body, hb, hpos, List.length_take]
      omega

/-- C6 witness: a response with body `"abc"` and `body_length = 3` emits
`Content-Length: 3` and writes exactly 3 body bytes. -/
theorem c6_content_length_iff_body_witness :
    update_content_length ⟨200, [], some ("abc".toList), 3⟩ =
      "Content-Length: ".toList ++ (Nat.repr 3).toList ++ "\r\n".toList ∧
    (write_body ⟨200, [], some ("abc".toList), 3⟩).length = 3 :=
  (c6_content_length_iff_body ⟨200, [], some ("abc".toList), 3⟩).2
    ("abc".toList) rfl (by decide) (by decide)

/-! ## Claim C7: first-match dispatch and the 404 fallback -/

/-- C7.  `handle_route` scans the table in registration order and invokes
the handler of the first entry whose path equals the request URI: with no
earlier matching entry, the handler registered for the URI is invoked no
matter what follows it in the table (in particular a second registration
for the same path is never invoked); with no matching entry at all, the
canonical 404 `"Page not found"` plain-text response is produced; and
`register_route` appends in call order while the table is below
capacity. -/
theorem c7_first_match_dispatch
    (t t1 t2 : List (List Char × Handler)) (request : http_request_t)
    (response : http_response_t) (handler : Handler) (path : List Char) :
    ((∀ e ∈ t1, e.1 ≠ request.uri) →
      handle_route (t1 ++ (request.uri, handler) :: t2) request response =
        handler request response) ∧
    ((∀ e ∈ t, e.1 ≠ request.uri) →
      handle_route t request response =
        ⟨404, [("Content-Type".toList, "text/plain".toList)],
         some ("Page not found".toList),
         ("Page not found".toList).length⟩) ∧
    (t.length < MAX_ROUTES →
      register_route t path handler = t ++ [(path, handler)]) := by
  refine ⟨?_, ?_, fun h => by simp [register_route, h]⟩
  · intro h
    induction t1 with
    | nil => simp [handle_route]
    | cons e t1' ih =>
      have he : e.1 ≠ request.uri := h e (by simp)
      have ih' := ih (fun x hx => h x (by simp [hx]))
      cases e with
      | mk p hd =>
        simp only [List.cons_append, handle_route]
        rw [if_neg (fun hc => he hc.symm)]
        exact ih'
  · intro h
    induction t with
    | nil => simp [handle_route, handle_not_found]
    | cons e t' ih =>
      have he : e.1 ≠ request.uri := h e (by simp)
      have ih' := ih (fun x hx => h x (by simp [hx]))
      cases e with
      | mk p hd =>
        simp only [handle_route]
        rw [if_neg (fun hc => he hc.symm)]
        exact ih'

/-- C7 witness: with `"/"` registered twice, dispatching `"/"` invokes the
first-registered handler; dispatch over an empty table produces the 404
response; registration appends. -/
theorem c7_first_match_dispatch_witness :
    handle_route
        [("/".toList, handle_home_page), ("/".toList, handle_hello_page)]
        ⟨"GET".toList, "/".toList, "HTTP/1.1".toList, [], none, 0⟩
        ⟨200, [], none, 0⟩ =
      handle_home_page
        ⟨"GET".toList, "/".toList, "HTTP/1.1".toList, [], none, 0⟩
        ⟨200, [], none, 0⟩ ∧
    handle_route []
        ⟨"GET".toList, "/missing".toList, "HTTP/1.1".toList, [], none, 0⟩
        ⟨200, [], none, 0⟩ =
      ⟨404, [("Content-Type".toList, "text/plain".toList)],
       some ("Page not found".toList), ("Page not found".toList).length⟩ ∧
    register_route [] ("/".toList) handle_home_page =
      [("/".toList, handle_home_page)] :=
  ⟨(c7_first_match_dispatch [] [] [("/".toList, handle_hello_page)]
      ⟨"GET".toList, "/".toList, "HTTP/1.1".toList, [], none, 0⟩
      ⟨200, [], none, 0⟩ handle_home_page ("/".toList)).1 (by simp),
   (c7_first_match_dispatch [] [] []
      ⟨"GET".toList, "/missing".toList, "HTTP/1.1".toList, [], none, 0⟩
      ⟨200, [], none, 0⟩ handle_home_page ("/".toList)).2.1 (by simp),
   (c7_first_match_dispatch [] [] []
      ⟨"GET".toList, "/missing".toList, "HTTP/1.1".toList, [], none, 0⟩
      ⟨200, [], none, 0⟩ handle_home_page ("/".toList)).2.2 (by decide)⟩

/-! ## Claim C8: the default-document rule -/

/-- C8.  Resolving `"/"` produces exactly the same candidate file path as
resolving `"/index.html"`, hence (on any one filesystem, i.e. when both
point at the same underlying file) the handler produces the same content
and MIME type for both; and every URI other than exactly `"/"` passes
through `get_default_file_path` to path construction unchanged. -/
theorem c8_root_defaults_to_index :
    build_file_path ("/".toList) = build_file_path ("/index.html".toList) ∧
    (∀ (fs : FileSystem) (req1 req2 : http_request_t)
        (response : http_response_t),
      req1.uri = "/".toList → req2.uri = "/index.html".toList →
      serve_static_file_handler fs req1 response =
        serve_static_file_handler fs req2 response) ∧
    (∀ uri : List Char, uri ≠ "/".toList →
      get_default_file_path uri = uri) := by
  have hb : build_file_path ("/".toList) =
      build_file_path ("/index.html".toList) := by decide
  refine ⟨hb, fun fs req1 req2 response h1 h2 => ?_, fun uri h => ?_⟩
  · simp only [serve_static_file_handler, h1, h2, hb]
  · unfold get_default_file_path
    rw [if_neg h]

/-- C8 witness: on a filesystem oracle where every path is a 2-byte
regular file with content `"hi"`, the handler's responses for `"/"` and
`"/index.html"` coincide, and `"/about.html"` passes through unchanged. -/
theorem c8_root_defaults_to_index_witness :
    serve_static_file_handler
        ⟨fun _ => some ⟨2, true⟩, fun _ _ => some ("hi".toList)⟩
        ⟨"GET".toList, "/".toList, "HTTP/1.1".toList, [], none, 0⟩
        ⟨200, [], none, 0⟩ =
      serve_static_file_handler
        ⟨fun _ => some ⟨2, true⟩, fun _ _ => some ("hi".toList)⟩
        ⟨"GET".toList, "/index.html".toList, "HTTP/1.1".toList, [], none, 0⟩
        ⟨200, [], none, 0⟩ ∧
    get_default_file_path ("/about.html".toList) = "/about.html".toList :=
  ⟨c8_root_defaults_to_index.2.1
      ⟨fun _ => some ⟨2, true⟩, fun _ _ => some ("hi".toList)⟩
      ⟨"GET".toList, "/".toList, "HTTP/1.1".toList, [], none, 0⟩
      ⟨"GET".toList, "/index.html".toList, "HTTP/1.1".toList, [], none, 0⟩
      ⟨200, [], none, 0⟩ rfl rfl,
   c8_root_defaults_to_index.2.2 ("/about.html".toList) (by decide)⟩

/-! ## Claim C9: failed content loads never return a partial body -/

/-- C9.  `read_file_content` returns `none` whenever the open fails or
the read returns a byte count different from the stat-reported size, and
any content it does return has exactly the reported size (the partially
filled buffer is released, never returned); in the handler, a failed
content load after successful validation produces the 500
`"Internal server error"` response. -/
theorem c9_read_failure_500 (fs : FileSystem) (file_path : List Char)
    (file_size : Nat) :
    (fs.readBytes file_path file_size = none →
      read_file_content fs file_path file_size = none) ∧
    (∀ bs, fs.readBytes file_path file_size = some bs →
      bs.length ≠ file_size →
      read_file_content fs file_path file_size = none) ∧
    (∀ content, read_file_content fs file_path file_size = some content →
      content.length = file_size) ∧
    (∀ (request : http_request_t) (response : http_response_t),
      build_file_path request.uri = some file_path →
      validate_file fs file_path = some file_size →
      read_file_content fs file_path file_size = none →
      (serve_static_file_handler fs request response).status_code = 500 ∧
      (serve_static_file_handler fs request response).body =
        some ("Internal server error".toList)) := by
  refine ⟨fun h => by simp [read_file_content, h], fun bs hb hl => ?_,
    fun content h => ?_, fun request response hbp hv hr => ?_⟩
  · simp [read_file_content, hb, hl]
  · unfold read_file_content at h
    cases hr : fs.readBytes file_path file_size with
    | none => rw [hr] at h; simp at h
    | some bs =>
      rw [hr] at h
      have h2 : (if bs.length ≠ file_size then (none : Option (List Char))
          else some bs) = some content := h
      by_cases hl : bs.length ≠ file_size
      · simp [hl] at h2
      · rw [if_neg hl] at h2
        obtain rfl := Option.some.inj h2
        omega
  · constructor <;> simp [serve_static_file_handler, hbp, hv, hr]

/-- C9 witness: a filesystem whose read returns 1 byte for a file whose
stat reports 2 bytes: the resolver returns no content, and the handler
produces the 500 response for the URI `"/f.txt"`. -/
theorem c9_read_failure_500_witness :
    read_file_content
        ⟨fun _ => some ⟨2, true⟩, fun _ _ => some ("a".toList)⟩
        ("./static/f.txt".toList) 2 = none ∧
    (serve_static_file_handler
        ⟨fun _ => some ⟨2, true⟩, fun _ _ => some ("a".toList)⟩
        ⟨"GET".toList, "/f.txt".toList, "HTTP/1.1".toList, [], none, 0⟩
        ⟨200, [], none, 0⟩).status_code = 500 :=
  have h := c9_read_failure_500
    ⟨fun _ => some ⟨2, true⟩, fun _ _ => some ("a".toList)⟩
    ("./static/f.txt".toList) 2
  have hrc := h.2.1 ("a".toList) rfl (by decide)
  ⟨hrc, (h.2.2.2 ⟨"GET".toList, "/f.txt".toList, "HTTP/1.1".toList, [], none, 0⟩
      ⟨200, [], none, 0⟩ (by decide) rfl hrc).1⟩

/-! ## Claim C10: the serialized protocol version is a literal -/

/-- C10.  Every serialized response begins with the literal bytes
`"HTTP/1.1 "`: the version in the status line is the fixed string in the
`snprintf` format of `update_status_line`, and `http_response_t` carries
no version field at all, so the version parsed from a request can never
reach the output wire format. -/
theorem c10_version_literal (response : http_response_t) :
    ∃ rest, send_http_response response = "HTTP/1.1 ".toList ++ rest :=
  ⟨(toString response.status_code).toList ++ [' '] ++
      status_text response.status_code ++ "\r\n".toList ++
      add_headers response ++ write_body response, by
    simp [send_http_response, update_status_line, List.append_assoc]⟩

/-! ## Claim C4: round-tripping the request line

The raw requests quantified over are built from an arbitrary request line
and an arbitrary list of header-line contents: `lineChunk c` is the line
`c` with its CRLF terminator, and `headerBlockChunk H` is the header
block made of the lines of `H` followed by the blank-line terminator. -/

/-- One CRLF-terminated line of a raw request. -/
def lineChunk (content : List Char) : List Char :=
  content ++ ['\r', '\n']

/-- The CRLF-terminated header lines of `H` followed by the blank-line
terminator of the header block. -/
def headerBlockChunk (H : List (List Char)) : List Char :=
  (H.map lineChunk).flatten ++ ['\r', '\n']

/-- A full raw request: request line, header lines, blank line. -/
def mkRawRequest (line : List Char) (H : List (List Char)) : List Char :=
  lineChunk line ++ headerBlockChunk H

/-- Is the character HTTP whitespace (space or horizontal tab)?  Used
only to state the claim's own notion of "whitespace-separated". -/
def isHttpWS (c : Char) : Bool := c == ' ' || c == '\t'

/-- Helper for `wsTokens`. -/
def wsTokensAux : List Char → List Char → List (List Char)
  | [], cur => if cur.isEmpty then [] else [cur.reverse]
  | c :: t, cur =>
    if isHttpWS c then
      if cur.isEmpty then wsTokensAux t []
      else cur.reverse :: wsTokensAux t []
    else wsTokensAux t (c :: cur)

/-- Modelled from the spec: the whitespace-separated tokens of a request
line, in the claim's sense of "whitespace" (space or tab).  This is the
claim's reading of tokenization, to be compared with `tokenize`, which is
the source's `strtok(_, " ")` and splits on spaces only. -/
def wsTokens (s : List Char) : List (List Char) :=
  wsTokensAux s []

/-- C4 counterexample: the request line `"GET\t/ HTTP/1.1"` consists of
exactly three whitespace-separated tokens, each within the size bounds,
and the raw request appends zero headers and the blank-line terminator,
yet parsing fails: `strtok(request_line, " ")` splits on spaces only, so
the line yields just two tokens (`"GET\t/"` and `"HTTP/1.1"`) and
`parse_http_request` returns `MalformedRequest` instead of succeeding. -/
theorem c4_whitespace_tokens_counterexample :
    wsTokens ("GET\t/ HTTP/1.1".toList) =
      ["GET".toList, "/".toList, "HTTP/1.1".toList] ∧
    tokenize ("GET\t/ HTTP/1.1".toList) =
      ["GET\t/".toList, "HTTP/1.1".toList] ∧
    parse_http_request (mkRawRequest ("GET\t/ HTTP/1.1".toList) []) =
      none := by
  refine ⟨?_, ?_, ?_⟩ <;> decide

/-- Scanning for `c` across a block that does not contain it shifts the
found index by the block's length. -/
theorem strchrIdx_append (c : Char) (l1 l2 : List Char)
    (h : ∀ a ∈ l1, a ≠ c) :
    strchrIdx c (l1 ++ l2) = (strchrIdx c l2).map (· + l1.length) := by
  induction l1 with
  | nil => cases h2 : strchrIdx c l2 <;> simp [h2]
  | cons a t ih =>
    have ha : a ≠ c := h a (by simp)
    have ih' := ih (fun x hx => h x (by simp [hx]))
    cases h2 : strchrIdx c l2 <;>
      simp [strchrIdx, ha, ih', h2] <;> omega

/-- A list that contains `c` has a first occurrence of `c`. -/
theorem strchrIdx_isSome_of_mem (c : Char) (l : List Char) (h : c ∈ l) :
    ∃ i, strchrIdx c l = some i := by
  induction l with
  | nil => simp at h
  | cons a t ih =>
    by_cases hac : a = c
    · exact ⟨0, by simp [strchrIdx, hac]⟩
    · have ht : c ∈ t := by
        rcases List.mem_cons.mp h with h | h
        · exact absurd h.symm hac
        · exact h
      obtain ⟨i, hi⟩ := ih ht
      exact ⟨i + 1, by simp [strchrIdx, hac, hi]⟩

/-- Taking `l1.length + n` elements of `l1 ++ l2` takes `l1` whole plus
`n` elements of `l2`. -/
theorem take_append_len {α : Type} (l1 l2 : List α) (n : Nat) :
    (l1 ++ l2).take (l1.length + n) = l1 ++ l2.take n := by
  induction l1 with
  | nil => simp
  | cons a t ih => simp [List.take_succ_cons, Nat.succ_add, ih]

/-- Dropping `l1.length + n` elements of `l1 ++ l2` drops `l1` whole plus
`n` elements of `l2`. -/
theorem drop_append_len {α : Type} (l1 l2 : List α) (n : Nat) :
    (l1 ++ l2).drop (l1.length + n) = l2.drop n := by
  induction l1 with
  | nil => simp
  | cons a t ih => simp [List.drop_succ_cons, Nat.succ_add, ih]

/-- The CRLFCRLF needle cannot start at a character other than CR. -/
theorem leadsWith_crlfcrlf_false (bs : List Char) (c : Char)
    (hc : c ≠ '\r') :
    leadsWith ['\r', '\n', '\r', '\n'] (c :: bs) = false := by
  simp only [leadsWith, Bool.and_eq_false_iff]
  left
  simpa using fun h => hc h.symm

/-- One scan step of `strstrAux` past a non-matching head. -/
theorem strstrAux_cons (needle : List Char) (c : Char) (t : List Char)
    (h : leadsWith needle (c :: t) = false) :
    strstrAux needle (c :: t) = (strstrAux needle t).map (· + 1) := by
  cases h2 : strstrAux needle t <;> simp [strstrAux, h, h2]

/-- Scanning for CRLFCRLF across a CR-free block shifts the found index
by the block's length. -/
theorem strstrAux_crlfcrlf_append (pre suf : List Char)
    (h : ∀ a ∈ pre, a ≠ '\r') :
    strstrAux ['\r', '\n', '\r', '\n'] (pre ++ suf) =
      (strstrAux ['\r', '\n', '\r', '\n'] suf).map (· + pre.length) := by
  induction pre with
  | nil => cases h2 : strstrAux ['\r', '\n', '\r', '\n'] suf <;> simp [h2]
  | cons a t ih =>
    have ha : a ≠ '\r' := h a (by simp)
    have ih' := ih (fun x hx => h x (by simp [hx]))
    rw [List.cons_append,
      strstrAux_cons _ _ _ (leadsWith_crlfcrlf_false _ _ ha), ih']
    cases h2 : strstrAux ['\r', '\n', '\r', '\n'] suf <;> simp [h2] <;> omega

/-- Unfolding lemma: the header block of `h :: H` starts with the line of
`h`. -/
theorem headerBlockChunk_cons (h : List Char) (H : List (List Char)) :
    headerBlockChunk (h :: H) = lineChunk h ++ headerBlockChunk H := by
  simp [headerBlockChunk, List.append_assoc]

/-- The header block always ends with the blank line, so it has at least
two characters. -/
theorem headerBlockChunk_length (H : List (List Char)) :
    2 ≤ (headerBlockChunk H).length := by
  simp [headerBlockChunk]

/-- Scanning for CRLFCRLF steps over one whole CR-free line when what
follows does not start with CR. -/
theorem strstrAux_skip_line (content : List Char) (c0 : Char)
    (X' : List Char) (hcontent : ∀ a ∈ content, a ≠ '\r')
    (hc0 : c0 ≠ '\r') :
    strstrAux ['\r', '\n', '\r', '\n'] (lineChunk content ++ (c0 :: X')) =
      (strstrAux ['\r', '\n', '\r', '\n'] (c0 :: X')).map
        (· + (content.length + 2)) := by
  have hshape : lineChunk content ++ (c0 :: X') =
      content ++ ('\r' :: '\n' :: c0 :: X') := by
    simp [lineChunk]
  rw [hshape, strstrAux_crlfcrlf_append content _ hcontent]
  have h1 : leadsWith ['\r', '\n', '\r', '\n'] ('\r' :: '\n' :: c0 :: X') =
      false := by
    simp only [leadsWith, Bool.and_eq_false_iff]
    right; right; left
    simpa using fun h => hc0 h.symm
  rw [strstrAux_cons _ _ _ h1]
  have h2 : leadsWith ['\r', '\n', '\r', '\n'] ('\n' :: c0 :: X') = false :=
    leadsWith_crlfcrlf_false _ _ (by decide)
  rw [strstrAux_cons _ _ _ h2]
  cases strstrAux ['\r', '\n', '\r', '\n'] (c0 :: X') <;> simp <;> omega

/-- In a raw request whose request line is CR-free and whose header-line
contents are non-empty and CR-free, the first occurrence of CRLFCRLF is
the blank line that terminates the header block (at four characters from
the end). -/
theorem strstr_boundary (H : List (List Char)) :
    ∀ line : List Char, (∀ a ∈ line, a ≠ '\r') →
    (∀ c ∈ H, c ≠ [] ∧ ∀ a ∈ c, a ≠ '\r') →
    strstrIdx (lineChunk line ++ headerBlockChunk H)
        ['\r', '\n', '\r', '\n'] =
      some (line.length + ((headerBlockChunk H).length - 2)) := by
  induction H with
  | nil =>
    intro line hline _
    have hshape : lineChunk line ++ headerBlockChunk [] =
        line ++ ['\r', '\n', '\r', '\n'] := by
      simp [lineChunk, headerBlockChunk]
    rw [strstrIdx, hshape, strstrAux_crlfcrlf_append line _ hline]
    simp [strstrAux, leadsWith, headerBlockChunk]
  | cons h H' ih =>
    intro line hline hH
    obtain ⟨hne, hcr⟩ := hH h (by simp)
    obtain ⟨c0, h2, rfl⟩ := List.exists_cons_of_ne_nil hne
    have hc0 : c0 ≠ '\r' := hcr c0 (by simp)
    have hX : lineChunk (c0 :: h2) ++ headerBlockChunk H' =
        c0 :: ((h2 ++ ['\r', '\n']) ++ headerBlockChunk H') := by
      simp [lineChunk]
    have hstep := strstrAux_skip_line line c0
      ((h2 ++ ['\r', '\n']) ++ headerBlockChunk H') hline hc0
    have hihx := ih (c0 :: h2) hcr (fun c hc => hH c (by simp [hc]))
    rw [strstrIdx] at hihx
    rw [strstrIdx, headerBlockChunk_cons, hX, hstep, ← hX, hihx]
    have hlen2 := headerBlockChunk_length H'
    have hlen3 : (lineChunk (c0 :: h2) ++ headerBlockChunk H').length =
        h2.length + 3 + (headerBlockChunk H').length := by
      simp [lineChunk]
      omega
    rw [hlen3]
    show some ((c0 :: h2).length + ((headerBlockChunk H').length - 2) +
      (line.length + 2)) = _
    simp only [Option.some.injEq, List.length_cons]
    omega

/-- On a block of well-formed header lines (CR/LF-free contents, each
containing a colon), the header-scanning loop never fails, for any
starting accumulator that leaves enough capacity and any sufficient
fuel.  The `stopLen` argument is 4 because the boundary CRLFCRLF of such
a block overlaps its final header-line terminator and blank line. -/
theorem parse_headers_loop_wf (H : List (List Char)) :
    ∀ (fuel : Nat) (acc : List (List Char × List Char)),
    (∀ c ∈ H, (∀ a ∈ c, a ≠ '\r' ∧ a ≠ '\n') ∧ ':' ∈ c) →
    acc.length + H.length ≤ MAX_HEADERS →
    (headerBlockChunk H).length ≤ fuel →
    ∃ hs, parse_headers_loop fuel (headerBlockChunk H) 4 acc = some hs := by
  induction H with
  | nil =>
    intro fuel acc _ _ _
    cases fuel with
    | zero => exact ⟨acc, rfl⟩
    | succ f =>
      refine ⟨acc, ?_⟩
      simp [parse_headers_loop, headerBlockChunk]
  | cons c H' ih =>
    intro fuel acc hwf hcount hfuel
    obtain ⟨hchars, hcolon⟩ := hwf c (by simp)
    have hcne : c ≠ [] := by
      intro h
      rw [h] at hcolon
      simp at hcolon
    have hB2 := headerBlockChunk_length H'
    have hclen : 1 ≤ c.length := by
      cases c with
      | nil => exact absurd rfl hcne
      | cons a t => simp
    have hshape : headerBlockChunk (c :: H') =
        (c ++ ['\r']) ++ '\n' :: headerBlockChunk H' := by
      rw [headerBlockChunk_cons]
      simp [lineChunk]
    have hlen : (headerBlockChunk (c :: H')).length =
        c.length + 2 + (headerBlockChunk H').length := by
      rw [hshape]
      simp
      omega
    cases fuel with
    | zero => omega
    | succ f =>
      have hchr : strchrIdx '\n' (headerBlockChunk (c :: H')) =
          some (c.length + 1) := by
        rw [hshape, strchrIdx_append '\n' (c ++ ['\r'])]
        · simp only [strchrIdx, if_pos rfl, Option.map]
          simp
        · intro a ha
          rcases List.mem_append.mp ha with ha | ha
          · exact (hchars a ha).2
          · simp only [List.mem_singleton] at ha
            rw [ha]
            decide
      have htake : (headerBlockChunk (c :: H')).take (c.length + 1) =
          c ++ ['\r'] := by
        rw [hshape]
        have he : c.length + 1 = (c ++ ['\r']).length + 0 := by simp
        rw [he, take_append_len]
        simp
      have hcopy : copy_line (c ++ ['\r']) = c := by
        simp [copy_line, List.getLast?_concat, List.dropLast_concat]
      obtain ⟨i, hi⟩ := strchrIdx_isSome_of_mem ':' c hcolon
      have hacc : acc.length < MAX_HEADERS := by
        simp only [MAX_HEADERS] at hcount ⊢
        simp only [List.length_cons] at hcount
        omega
      have hph : parse_header c acc =
          some (acc ++ [((c.take i).take (MAX_HEADER_SIZE - 1),
            ((c.drop (i + 1)).dropWhile
              (fun ch => ch == ' ' || ch == '\t')).take
                (MAX_HEADER_SIZE - 1))]) := by
        unfold parse_header
        rw [if_neg (by omega), hi]
      have hdrop : (headerBlockChunk (c :: H')).drop (c.length + 1 + 1) =
          headerBlockChunk H' := by
        rw [headerBlockChunk_cons]
        have he : c.length + 1 + 1 = (lineChunk c).length + 0 := by
          simp [lineChunk]
        rw [he, drop_append_len]
        simp
      have hstep : parse_headers_loop (f + 1) (headerBlockChunk (c :: H'))
          4 acc =
          parse_headers_loop f (headerBlockChunk H') 4
            (acc ++ [((c.take i).take (MAX_HEADER_SIZE - 1),
              ((c.drop (i + 1)).dropWhile
                (fun ch => ch == ' ' || ch == '\t')).take
                  (MAX_HEADER_SIZE - 1))]) := by
        simp only [parse_headers_loop]
        rw [if_pos ⟨by omega, hacc⟩, hchr]
        simp only [Nat.reduceLeDiff]
        rw [if_neg (by omega), htake, hcopy, hph, hdrop]
      obtain ⟨hs, hhs⟩ := ih f
        (acc ++ [((c.take i).take (MAX_HEADER_SIZE - 1),
          ((c.drop (i + 1)).dropWhile
            (fun ch => ch == ' ' || ch == '\t')).take
              (MAX_HEADER_SIZE - 1))])
        (fun x hx => hwf x (by simp [hx]))
        (by simp only [List.length_append, List.length_cons,
              List.length_nil] at hcount ⊢; omega)
        (by omega)
      exact ⟨hs, by rw [hstep]; exact hhs⟩

/-- C4 (amended).  For every raw request whose request line consists of
three (or more) space-separated tokens within the size bounds, followed
by at most 50 well-formed headers and a blank-line terminator, parsing
succeeds and the populated request's method, URI and version fields equal
the first three input tokens exactly (extra tokens are ignored).  The
tokens are the space-separated ones — `strtok(request_line, " ")` splits
on `' '` only, not on general whitespace. -/
theorem c4_request_line_preserved (line : List Char)
    (H : List (List Char)) (m u v : List Char) (ts : List (List Char))
    (hline : ∀ a ∈ line, a ≠ '\r' ∧ a ≠ '\n')
    (htok : tokenize line = m :: u :: v :: ts)
    (hm : m.length ≤ MAX_METHOD_SIZE - 1)
    (hu : u.length ≤ MAX_URI_SIZE - 1)
    (hv : v.length ≤ MAX_VERSION_SIZE - 1)
    (hH : ∀ c ∈ H, (∀ a ∈ c, a ≠ '\r' ∧ a ≠ '\n') ∧ ':' ∈ c)
    (hcount : H.length ≤ MAX_HEADERS) :
    ∃ req, parse_http_request (mkRawRequest line H) = some req ∧
      req.method = m ∧ req.uri = u ∧ req.version = v := by
  have hHne : ∀ c ∈ H, c ≠ [] ∧ ∀ a ∈ c, a ≠ '\r' := by
    intro c hc
    obtain ⟨hchars, hcolon⟩ := hH c hc
    refine ⟨?_, fun a ha => (hchars a ha).1⟩
    intro h
    rw [h] at hcolon
    simp at hcolon
  have hB2 := headerBlockChunk_length H
  have hfhe : find_header_end (lineChunk line ++ headerBlockChunk H) =
      some (line.length + ((headerBlockChunk H).length - 2)) := by
    unfold find_header_end
    rw [strstr_boundary H line (fun a ha => (hline a ha).1) hHne]
  have hshape : lineChunk line ++ headerBlockChunk H =
      (line ++ ['\r']) ++ '\n' :: headerBlockChunk H := by
    simp [lineChunk]
  have hrle : find_request_line_end (lineChunk line ++ headerBlockChunk H) =
      some (line.length + 1) := by
    unfold find_request_line_end
    rw [hshape, strchrIdx_append '\n' (line ++ ['\r'])]
    · simp only [strchrIdx, if_pos rfl, Option.map]
      simp
    · intro a ha
      rcases List.mem_append.mp ha with ha | ha
      · exact (hline a ha).2
      · simp only [List.mem_singleton] at ha
        rw [ha]
        decide
  have htake : (lineChunk line ++ headerBlockChunk H).take (line.length + 1) =
      line ++ ['\r'] := by
    rw [hshape]
    have he : line.length + 1 = (line ++ ['\r']).length + 0 := by simp
    rw [he, take_append_len]
    simp
  have hcopy : copy_line (line ++ ['\r']) = line := by
    simp [copy_line, List.getLast?_concat, List.dropLast_concat]
  have hdrop : (lineChunk line ++ headerBlockChunk H).drop
      (line.length + 1 + 1) = headerBlockChunk H := by
    have he : line.length + 1 + 1 = (lineChunk line).length + 0 := by
      simp [lineChunk]
    rw [he, drop_append_len]
    simp
  have hrawlen : (lineChunk line ++ headerBlockChunk H).length =
      line.length + 2 + (headerBlockChunk H).length := by
    simp [lineChunk]
    omega
  have hstop : (lineChunk line ++ headerBlockChunk H).length -
      (line.length + ((headerBlockChunk H).length - 2)) = 4 := by
    rw [hrawlen]
    omega
  obtain ⟨hs, hloop⟩ := parse_headers_loop_wf H
    (headerBlockChunk H).length [] hH (by simpa using hcount)
    (Nat.le_refl _)
  refine ⟨⟨m, u, v, hs, none, 0⟩, ?_, rfl, rfl, rfl⟩
  have hm' : m.take (MAX_METHOD_SIZE - 1) = m := List.take_of_length_le hm
  have hu' : u.take (MAX_URI_SIZE - 1) = u := List.take_of_length_le hu
  have hv' : v.take (MAX_VERSION_SIZE - 1) = v := List.take_of_length_le hv
  simp only [mkRawRequest, parse_http_request, hfhe, hrle, htake, hcopy,
    htok, hdrop, hstop, hloop, hm', hu', hv']

/-- C4 witness: the request `"GET /index.html HTTP/1.1"` with the single
header line `"Host: example.com"` parses to a request whose method, URI
and version are the three tokens. -/
theorem c4_request_line_preserved_witness :
    ∃ req, parse_http_request
        (mkRawRequest ("GET /index.html HTTP/1.1".toList)
          ["Host: example.com".toList]) = some req ∧
      req.method = "GET".toList ∧ req.uri = "/index.html".toList ∧
      req.version = "HTTP/1.1".toList :=
  c4_request_line_preserved ("GET /index.html HTTP/1.1".toList)
    ["Host: example.com".toList] ("GET".toList) ("/index.html".toList)
    ("HTTP/1.1".toList) [] (by decide) (by decide) (by decide) (by decide)
    (by decide) (by decide) (by decide)
